import Mathlib

/-!
Verification development for the sleep-audio recorder (src/main.py).

Modeling conventions:
* numpy arrays of audio samples are modeled as `List ℚ` (exact rationals;
  the claims under study are about structure, lengths and guards, not
  floating-point rounding);
* a Python call that may raise is modeled as `Except String α`, the error
  string naming the exception;
* the blocking device stream is modeled as a function `chunk : ℕ → List ℚ`
  giving the samples returned by the i-th `stream.read(512)` call, and a
  `KeyboardInterrupt` arriving between chunk reads is modeled by
  `cancelAt : Option ℕ`, the number of reads completed when it arrives.
-/

namespace SleepRec

/-- Configuration constant `SAMPLE_RATE = 16000` (src/main.py line 14). -/
def SAMPLE_RATE : ℕ := 16000

/-- Configuration constant `NOISE_DURATION = 1` second (line 16). -/
def NOISE_DURATION : ℕ := 1

/-- The fixed chunk size of `stream.read(512)` (line 51). -/
def CHUNK : ℕ := 512

/-- Model of `np.concatenate(xs)` on a Python list of 1-D arrays: joins them in order.
numpy raises `ValueError` when the list is empty (a zero-size reduction has
no identity array to start from). -/
def npConcatenate (xs : List (List ℚ)) : Except String (List ℚ) :=
  if xs.isEmpty then
    Except.error "ValueError: need at least one array to concatenate"
  else
    Except.ok xs.flatten

/-- Model of `int(duration * SAMPLE_RATE / 512)` (line 50): the number of chunk reads
the capture loop attempts.  For natural `duration` the Python float division
followed by `int` truncation equals natural floor division. -/
def totalChunks (duration : ℕ) : ℕ := duration * SAMPLE_RATE / CHUNK

/-- Number of chunk reads that complete: all `totalChunks` of them when no
interrupt arrives; `min k (totalChunks duration)` when a `KeyboardInterrupt`
arrives after `k` completed reads (it cannot interrupt mid-read, and once the
loop has finished it can no longer cut it short). -/
def chunksRead (duration : ℕ) (cancelAt : Option ℕ) : ℕ :=
  match cancelAt with
  | none => totalChunks duration
  | some k => min k (totalChunks duration)

/-- Model of `record_audio` (lines 42-62): the loop appends each chunk read to the
accumulator `audio`; both the normal exit (line 56) and the
`KeyboardInterrupt` handler (line 59) return `np.concatenate(audio)`. -/
def record_audio (duration : ℕ) (chunk : ℕ → List ℚ) (cancelAt : Option ℕ) :
    Except String (List ℚ) :=
  npConcatenate ((List.range (chunksRead duration cancelAt)).map chunk)

/-- Model of `np.max(np.abs(audio))` (line 65) for a nonempty array: every `|x|` is
nonnegative, so folding `max` from `0` over the absolute values computes the
numpy maximum on any nonempty input. -/
def maxAbs (audio : List ℚ) : ℚ := (audio.map (fun x => |x|)).foldl max 0

/-- Model of `normalize_audio` (lines 64-66).  On an empty array `np.max` raises
`ValueError` (zero-size reduction) before the `max_val > 0` guard is ever
reached; otherwise the guard divides by the peak only when it is positive. -/
def normalize_audio (audio : List ℚ) : Except String (List ℚ) :=
  if audio.isEmpty then
    Except.error "ValueError: zero-size array to reduction operation maximum which has no identity"
  else
    let max_val := maxAbs audio
    if 0 < max_val then Except.ok (audio.map (fun x => x / max_val))
    else Except.ok audio

/-- Model of the noise-profile extraction of `reduce_noise` (line 71):
`noise_sample = audio[:int(NOISE_DURATION * SAMPLE_RATE)]`. -/
def noise_sample (audio : List ℚ) : List ℚ :=
  audio.take (NOISE_DURATION * SAMPLE_RATE)

/-- Model of `reduce_noise` (lines 68-77).  The external `nr.reduce_noise`
spectral subtraction (an out-of-scope collaborator, spec section 1) is the
parameter `nrReduce`, taking the buffer `y` and the noise profile `y_noise`;
the repository code itself only derives the profile and passes both on,
configured with `prop_decrease = 0.9`. -/
def reduce_noise (nrReduce : List ℚ → List ℚ → List ℚ) (audio : List ℚ) :
    List ℚ :=
  nrReduce audio (noise_sample audio)

/-- The additive guard `1e-10` of `10 * np.log10(Sxx + 1e-10)` (line 90). -/
def epsilon : ℚ := 1 / 10 ^ 10

/-- Matrix of arguments handed to `np.log10` by the spectrogram renderer
(line 90): elementwise `power + 1e-10` over the power matrix `Sxx`. -/
def log10Args (Sxx : List (List ℚ)) : List (List ℚ) :=
  Sxx.map (fun row => row.map (fun power => power + epsilon))

/-- Model of lines 152-156 of `main`: the captured buffer is normalized and
then line 156 assigns `clean_audio = (raw_audio)`; the parameter `reducer`
(standing for `reduce_noise` as configured) is never invoked. -/
def mainBuffers (reducer : List ℚ → List ℚ) (captured : List ℚ) :
    Except String (List ℚ × List ℚ) :=
  match normalize_audio captured with
  | Except.error e => Except.error e
  | Except.ok raw_audio =>
    let clean_audio := raw_audio
    Except.ok (raw_audio, clean_audio)

/-- Outcome of one artifact write within a session. -/
inductive WriteStatus
  | completed
  | failed
  | skipped
deriving DecidableEq

/-- Model of sequential fallible writes with Python exception propagation:
each write runs in order, and the first raised exception skips every later
write and becomes the session outcome (`save_recording`, lines 109-123, has
no per-write handler, and `main`, lines 165-166, catches the first exception
and prints one error).  Returns the per-write statuses and the overall
result. -/
def runWrites : List (Except String Unit) → List WriteStatus × Except String Unit
  | [] => ([], Except.ok ())
  | Except.ok _ :: ws =>
    let r := runWrites ws
    (WriteStatus.completed :: r.1, r.2)
  | Except.error e :: ws =>
    (WriteStatus.failed :: ws.map (fun _ => WriteStatus.skipped), Except.error e)

/-- Model of the write sequence of `save_recording` (lines 116-123): raw wav,
clean wav, raw spectrogram image, clean spectrogram image, in that order;
each argument is the outcome the corresponding external write produces when
attempted. -/
def save_recording (writeRawWav writeCleanWav saveRawSpec saveCleanSpec : Except String Unit) :
    List WriteStatus × Except String Unit :=
  runWrites [writeRawWav, writeCleanWav, saveRawSpec, saveCleanSpec]

/-- Directory constant `RAW_DIR = "data/raw"` (line 19).  File paths are
modeled as lists of characters so the timestamp token can be recovered by
list surgery. -/
def RAW_DIR : List Char := "data/raw".toList

/-- Directory constant `CLEAN_DIR = "data/clean"` (line 20). -/
def CLEAN_DIR : List Char := "data/clean".toList

/-- Directory constant `SPEC_DIR = "data/spectrograms"` (line 22). -/
def SPEC_DIR : List Char := "data/spectrograms".toList

/-- Model of `os.path.join(RAW_DIR, f"raw_{timestamp}.wav")` (line 113). -/
def raw_path (t : List Char) : List Char :=
  RAW_DIR ++ "/raw_".toList ++ t ++ ".wav".toList

/-- Model of `os.path.join(CLEAN_DIR, f"clean_{timestamp}.wav")` (line 114). -/
def clean_path (t : List Char) : List Char :=
  CLEAN_DIR ++ "/clean_".toList ++ t ++ ".wav".toList

/-- Model of `os.path.join(SPEC_DIR, f"spectrogram_raw_{timestamp}.png")`
(line 121). -/
def spec_raw_path (t : List Char) : List Char :=
  SPEC_DIR ++ "/spectrogram_raw_".toList ++ t ++ ".png".toList

/-- Model of `os.path.join(SPEC_DIR, f"spectrogram_clean_{timestamp}.png")`
(line 123). -/
def spec_clean_path (t : List Char) : List Char :=
  SPEC_DIR ++ "/spectrogram_clean_".toList ++ t ++ ".png".toList

/-- Recovery of the token standing between a fixed leading part and a fixed
trailing extension of a path. -/
def extractT (lead trail p : List Char) : List Char :=
  (p.drop lead.length).take (p.length - lead.length - trail.length)

/-- Model of lines 146-149 of `main`: the requested minutes are converted to
seconds (`duration = int(input(...)) * 60`) and a request below 60 seconds is
clamped up to 60 (`if duration < 60: duration = 60`), never rejected. -/
def mainDuration (minutes : ℤ) : ℤ :=
  if minutes * 60 < 60 then 60 else minutes * 60

/-! Helper lemmas about the capture loop. -/

lemma flatten_length_const (l : List (List ℚ)) (c : ℕ)
    (h : ∀ x ∈ l, x.length = c) : l.flatten.length = l.length * c := by
  induction l with
  | nil => simp
  | cons x xs ih =>
    simp only [List.flatten_cons, List.length_append, List.length_cons]
    rw [h x (by simp), ih (fun y hy => h y (by simp [hy]))]
    ring

lemma totalChunks_pos (duration : ℕ) (hd : 1 ≤ duration) :
    0 < totalChunks duration := by
  have h1 : CHUNK ≤ duration * SAMPLE_RATE := by
    have : SAMPLE_RATE ≤ duration * SAMPLE_RATE :=
      Nat.le_mul_of_pos_left _ hd
    simp only [CHUNK, SAMPLE_RATE] at *
    omega
  exact Nat.div_pos h1 (by simp [CHUNK])

/-- C4: an uncancelled, error-free capture of duration `d` reads exactly
`floor(d·sr/c)` chunks and returns a buffer of exactly `floor(d·sr/c) × c`
samples, where `sr = 16000` and `c = 512`. -/
theorem record_audio_uncancelled (duration : ℕ) (chunk : ℕ → List ℚ)
    (hd : 1 ≤ duration) (hc : ∀ i, (chunk i).length = CHUNK) :
    chunksRead duration none = totalChunks duration ∧
    ∃ buf, record_audio duration chunk none = Except.ok buf ∧
      buf.length = totalChunks duration * CHUNK := by
  refine ⟨rfl, ?_⟩
  have hpos := totalChunks_pos duration hd
  have hne : ((List.range (chunksRead duration none)).map chunk).isEmpty = false := by
    simp [chunksRead, List.isEmpty_iff, List.range_eq_nil]
    omega
  refine ⟨((List.range (chunksRead duration none)).map chunk).flatten, ?_, ?_⟩
  · simp [record_audio, npConcatenate, hne]
  · rw [flatten_length_const _ CHUNK (by simp [hc])]
    simp [chunksRead]

/-- C4 witness: duration 60 s at 16000 Hz with 512-sample chunks gives 1875
chunks and 960000 samples. -/
theorem record_audio_uncancelled_witness :
    totalChunks 60 = 1875 ∧ totalChunks 60 * CHUNK = 960000 ∧
    (chunksRead 60 none = totalChunks 60 ∧
     ∃ buf, record_audio 60 (fun _ => List.replicate CHUNK 0) none = Except.ok buf ∧
       buf.length = totalChunks 60 * CHUNK) := by
  refine ⟨by norm_num [totalChunks, SAMPLE_RATE, CHUNK], by norm_num [totalChunks, SAMPLE_RATE, CHUNK], ?_⟩
  exact record_audio_uncancelled 60 (fun _ => List.replicate CHUNK 0)
    (by norm_num) (fun i => by simp only [List.length_replicate])

/-! Helper lemmas about the peak computation of `normalize_audio`. -/

lemma le_foldl_max (l : List ℚ) (a : ℚ) : a ≤ l.foldl max a := by
  induction l generalizing a with
  | nil => exact le_refl a
  | cons x xs ih => exact le_trans (le_max_left a x) (ih (max a x))

lemma maxAbs_nonneg (l : List ℚ) : 0 ≤ maxAbs l := le_foldl_max _ 0

lemma foldl_max_map_div (c : ℚ) (hc : 0 ≤ c) (l : List ℚ) :
    ∀ a : ℚ, (l.map (fun x => x / c)).foldl max (a / c) = l.foldl max a / c := by
  induction l with
  | nil => intro a; rfl
  | cons x xs ih =>
    intro a
    simp only [List.map_cons, List.foldl_cons]
    rw [max_div_div_right hc a x, ih (max a x)]

lemma maxAbs_map_div (l : List ℚ) (c : ℚ) (hc : 0 < c) :
    maxAbs (l.map (fun x => x / c)) = maxAbs l / c := by
  unfold maxAbs
  rw [List.map_map]
  have habs : (fun x => |x|) ∘ (fun x => x / c) = fun x => |x| / c := by
    funext x
    simp only [Function.comp_apply, abs_div, abs_of_pos hc]
  rw [habs]
  have hmap : (l.map fun x => |x| / c) = (l.map fun x => |x|).map (fun x => x / c) := by
    rw [List.map_map]
    rfl
  rw [hmap, show (0 : ℚ) = 0 / c by rw [zero_div],
    foldl_max_map_div c (le_of_lt hc)]
  rw [zero_div]

/-- C3 (amended): on every nonempty buffer, `normalize_audio` succeeds,
preserves the length, and either divides by the positive peak — making the
peak of the result exactly 1 — or, when the peak is 0, returns the buffer
unchanged.  (The empty buffer instead raises `ValueError` from `np.max`.) -/
theorem normalize_audio_nonempty (audio : List ℚ) (h : audio ≠ []) :
    ∃ b, normalize_audio audio = Except.ok b ∧
      b.length = audio.length ∧
      (0 < maxAbs audio → b = audio.map (fun x => x / maxAbs audio) ∧ maxAbs b = 1) ∧
      (maxAbs audio = 0 → b = audio) := by
  have hne : audio.isEmpty = false := by simp [List.isEmpty_iff, h]
  by_cases hpos : 0 < maxAbs audio
  · refine ⟨audio.map (fun x => x / maxAbs audio), ?_, ?_, ?_, ?_⟩
    · simp [normalize_audio, hne, hpos]
    · simp
    · refine fun _ => ⟨rfl, ?_⟩
      rw [maxAbs_map_div audio (maxAbs audio) hpos,
        div_self (ne_of_gt hpos)]
    · intro h0; rw [h0] at hpos; exact absurd hpos (lt_irrefl 0)
  · have h0 : maxAbs audio = 0 :=
      le_antisymm (not_lt.mp hpos) (maxAbs_nonneg audio)
    refine ⟨audio, ?_, rfl, fun hc => absurd hc hpos, fun _ => rfl⟩
    simp [normalize_audio, hne, hpos]

/-- C3 witness: the buffer `[1/2, -2]` has peak 2 and normalizes to peak 1. -/
theorem normalize_audio_nonempty_witness :
    ∃ b, normalize_audio [(1 : ℚ)/2, -2] = Except.ok b ∧
      b.length = ([(1 : ℚ)/2, -2] : List ℚ).length ∧
      (0 < maxAbs [(1 : ℚ)/2, -2] →
        b = ([(1 : ℚ)/2, -2] : List ℚ).map (fun x => x / maxAbs [(1 : ℚ)/2, -2]) ∧
        maxAbs b = 1) ∧
      (maxAbs [(1 : ℚ)/2, -2] = 0 → b = [(1 : ℚ)/2, -2]) :=
  normalize_audio_nonempty [(1 : ℚ)/2, -2] (by simp)

/-- C3 counterexample: `normalize_audio` on the empty buffer does not return
the buffer unchanged — `np.max` of a zero-size array raises `ValueError`. -/
theorem normalize_audio_empty_raises :
    normalize_audio ([] : List ℚ) ≠ Except.ok [] ∧
    normalize_audio ([] : List ℚ) =
      Except.error "ValueError: zero-size array to reduction operation maximum which has no identity" := by
  constructor
  · simp [normalize_audio]
  · rfl

/-- C10: `normalize_audio` is idempotent on nonempty buffers (over exact
arithmetic): normalizing an already-normalized buffer divides by a peak of
exactly 1 (or returns an all-zero buffer unchanged again). -/
theorem normalize_audio_idempotent (audio : List ℚ) (h : audio ≠ []) :
    (normalize_audio audio).bind normalize_audio = normalize_audio audio := by
  have hne : audio.isEmpty = false := by simp [List.isEmpty_iff, h]
  by_cases hpos : 0 < maxAbs audio
  · have hstep : normalize_audio audio =
        Except.ok (audio.map (fun x => x / maxAbs audio)) := by
      simp [normalize_audio, hne, hpos]
    rw [hstep]
    have hne2 : (audio.map (fun x => x / maxAbs audio)).isEmpty = false := by
      simp [List.isEmpty_iff, h]
    have hmax2 : maxAbs (audio.map (fun x => x / maxAbs audio)) = 1 := by
      rw [maxAbs_map_div audio (maxAbs audio) hpos, div_self (ne_of_gt hpos)]
    have hid : (audio.map (fun x => x / maxAbs audio)).map
        (fun x => x / maxAbs (audio.map (fun x => x / maxAbs audio))) =
        audio.map (fun x => x / maxAbs audio) := by
      rw [hmax2]
      simp
    simp only [Except.bind, normalize_audio, hne2, hmax2]
    norm_num [hid]
  · have hstep : normalize_audio audio = Except.ok audio := by
      simp [normalize_audio, hne, hpos]
    rw [hstep]
    simp only [Except.bind]
    exact hstep

/-- C10 witness: normalizing `[2, -1]` twice equals normalizing it once. -/
theorem normalize_audio_idempotent_witness :
    (normalize_audio [(2 : ℚ), -1]).bind normalize_audio =
      normalize_audio [(2 : ℚ), -1] :=
  normalize_audio_idempotent [(2 : ℚ), -1] (by simp)

/-- C1: cancelling before the first chunk completes (`k = 0`) makes the
`KeyboardInterrupt` handler call `np.concatenate([])`, which raises
`ValueError` — the session fails purely because of the cancellation — while
cancelling after one chunk returns that chunk's 512 samples as claimed. -/
theorem record_audio_cancel_zero_raises :
    record_audio 60 (fun _ => List.replicate CHUNK 0) (some 0) =
      Except.error "ValueError: need at least one array to concatenate" ∧
    record_audio 60 (fun _ => List.replicate CHUNK 0) (some 1) =
      Except.ok (List.replicate CHUNK 0) := by
  constructor
  · rfl
  · have h1 : chunksRead 60 (some 1) = 1 := by
      simp [chunksRead, totalChunks, SAMPLE_RATE, CHUNK]
    simp [record_audio, npConcatenate, h1, List.range_succ]

/-- C5: the noise profile is the first `NOISE_DURATION × SAMPLE_RATE` samples
of the buffer, so its length never exceeds the buffer's; a buffer no longer
than the profile window yields the whole buffer as its profile; and
`reduce_noise` is defined on every buffer, handing the buffer and its profile
to the reducer. -/
theorem reduce_noise_profile (audio : List ℚ) :
    (noise_sample audio).length ≤ audio.length ∧
    (audio.length ≤ NOISE_DURATION * SAMPLE_RATE → noise_sample audio = audio) ∧
    ∀ f, reduce_noise f audio = f audio (noise_sample audio) := by
  refine ⟨?_, ?_, fun f => rfl⟩
  · rw [noise_sample, List.length_take]
    exact min_le_right _ _
  · intro h
    exact List.take_of_length_le h

/-- C5 witness: a 3-sample buffer is shorter than the 16000-sample noise
window, so its profile is the whole buffer. -/
theorem reduce_noise_profile_witness :
    (noise_sample [(1 : ℚ), 2, 3]).length ≤ ([(1 : ℚ), 2, 3] : List ℚ).length ∧
    noise_sample [(1 : ℚ), 2, 3] = [(1 : ℚ), 2, 3] :=
  ⟨(reduce_noise_profile [(1 : ℚ), 2, 3]).1,
   (reduce_noise_profile [(1 : ℚ), 2, 3]).2.1
     (by norm_num [NOISE_DURATION, SAMPLE_RATE])⟩

/-- C6: every argument handed to `np.log10` by the spectrogram renderer is
`power + 1e-10`, which is strictly positive whenever the power value is
non-negative — so an all-silent (all-zero) power matrix never reaches
`log(0)`. -/
theorem log10Args_pos (Sxx : List (List ℚ))
    (h : ∀ row ∈ Sxx, ∀ p ∈ row, 0 ≤ p) :
    ∀ row ∈ log10Args Sxx, ∀ a ∈ row, 0 < a := by
  intro row hrow a ha
  simp only [log10Args, List.mem_map] at hrow
  obtain ⟨r0, hr0, rfl⟩ := hrow
  simp only [List.mem_map] at ha
  obtain ⟨p, hp, rfl⟩ := ha
  have hpow := h r0 hr0 p hp
  have heps : 0 < epsilon := by norm_num [epsilon]
  linarith

/-- C6 witness: the log argument produced for a zero power value — the only
value a silent buffer's power matrix contains — is strictly positive. -/
theorem log10Args_pos_witness : 0 < (0 : ℚ) + epsilon :=
  log10Args_pos [[0]] (by norm_num) [(0 : ℚ) + epsilon]
    (by simp [log10Args]) ((0 : ℚ) + epsilon) (by simp)

/-- C2 counterexample: with a reducer that halves every sample and captured
buffer `[1]`, `main` produces clean buffer `[1]`, while applying the reducer
to the normalized buffer would give `[1/2]` — the persisted clean buffer is
not the reducer's output. -/
theorem mainBuffers_bypasses_reducer :
    mainBuffers (fun xs => xs.map (fun x => x / 2)) [(1 : ℚ)] =
      Except.ok ([(1 : ℚ)], [(1 : ℚ)]) ∧
    (fun xs : List ℚ => xs.map (fun x => x / 2)) [(1 : ℚ)] ≠ [(1 : ℚ)] := by
  constructor
  · have h1 : normalize_audio [(1 : ℚ)] = Except.ok [(1 : ℚ)] := by
      have hmax : maxAbs [(1 : ℚ)] = 1 := by
        simp [maxAbs]
      simp [normalize_audio, hmax]
    simp [mainBuffers, h1]
  · norm_num

/-- C2 (amended): line 156 assigns `clean_audio = (raw_audio)` without
calling `reduce_noise`, so for every reducer and every captured buffer the
clean buffer equals the normalized buffer and the pipeline output does not
depend on the reducer at all. -/
theorem mainBuffers_clean_eq_normalized (reducer : List ℚ → List ℚ)
    (captured raw clean : List ℚ)
    (h : mainBuffers reducer captured = Except.ok (raw, clean)) :
    clean = raw ∧ normalize_audio captured = Except.ok raw ∧
    ∀ reducer2, mainBuffers reducer2 captured = mainBuffers reducer captured := by
  unfold mainBuffers at h
  cases hnorm : normalize_audio captured with
  | error e =>
    rw [hnorm] at h
    exact absurd h (by simp)
  | ok b =>
    rw [hnorm] at h
    have hb := Except.ok.inj h
    have h1 : b = raw := congrArg Prod.fst hb
    have h2 : b = clean := congrArg Prod.snd hb
    refine ⟨h2.symm.trans h1, by rw [h1], fun reducer2 => ?_⟩
    unfold mainBuffers
    rw [hnorm]

/-- C2 amended-theorem witness: capturing `[2]` normalizes to `[1]` and the
clean buffer equals it, whatever the reducer. -/
theorem mainBuffers_clean_eq_normalized_witness :
    ([(1 : ℚ)] : List ℚ) = [(1 : ℚ)] ∧
    normalize_audio [(2 : ℚ)] = Except.ok [(1 : ℚ)] ∧
    ∀ reducer2, mainBuffers reducer2 [(2 : ℚ)] =
      mainBuffers (fun xs => xs) [(2 : ℚ)] := by
  refine mainBuffers_clean_eq_normalized (fun xs => xs) [(2 : ℚ)] [(1 : ℚ)] [(1 : ℚ)] ?_
  have hmax : maxAbs [(2 : ℚ)] = 2 := by
    simp [maxAbs]
  have h1 : normalize_audio [(2 : ℚ)] = Except.ok [(1 : ℚ)] := by
    simp [normalize_audio, hmax]
  simp [mainBuffers, h1]

/-- C7 counterexample: the session where the clean-wav write fails and the
session where the raw-spectrogram write fails complete different sets of
artifacts, yet surface the identical single error outcome — the session
report does not identify which of the four outputs succeeded and which
failed. -/
theorem save_recording_single_report :
    (save_recording (Except.ok ()) (Except.error "disk full") (Except.ok ()) (Except.ok ())).2 =
      (save_recording (Except.ok ()) (Except.ok ()) (Except.error "disk full") (Except.ok ())).2 ∧
    (save_recording (Except.ok ()) (Except.error "disk full") (Except.ok ()) (Except.ok ())).1 ≠
      (save_recording (Except.ok ()) (Except.ok ()) (Except.error "disk full") (Except.ok ())).1 := by
  constructor
  · rfl
  · decide

lemma runWrites_append_error (e : String) (post : List (Except String Unit)) :
    ∀ pre : List (Except String Unit), (∀ w ∈ pre, w = Except.ok ()) →
      runWrites (pre ++ Except.error e :: post) =
        (pre.map (fun _ => WriteStatus.completed) ++
          WriteStatus.failed :: post.map (fun _ => WriteStatus.skipped),
         Except.error e) := by
  intro pre
  induction pre with
  | nil => intro _; simp [runWrites]
  | cons w ws ih =>
    intro hpre
    have hw : w = Except.ok () := hpre w (by simp)
    subst hw
    have ih2 := ih (fun x hx => hpre x (by simp [hx]))
    simp only [List.cons_append, runWrites, List.append_eq, ih2, List.map_cons]

/-- C7 (amended): the four writes run in order with no per-artifact handling:
every write before the first failure completes and stays completed (already
succeeded artifacts are not undone), the failing write raises, every later
write is skipped, and the session surfaces only that first failure as a
single error outcome. -/
theorem save_recording_first_failure (w1 w2 w3 w4 : Except String Unit)
    (pre post : List (Except String Unit)) (e : String)
    (hsplit : [w1, w2, w3, w4] = pre ++ Except.error e :: post)
    (hpre : ∀ w ∈ pre, w = Except.ok ()) :
    save_recording w1 w2 w3 w4 =
      (pre.map (fun _ => WriteStatus.completed) ++
        WriteStatus.failed :: post.map (fun _ => WriteStatus.skipped),
       Except.error e) := by
  rw [save_recording, hsplit]
  exact runWrites_append_error e post pre hpre

/-- C7 amended-theorem witness: raw and clean wav writes succeed, the raw
spectrogram write fails, the clean spectrogram write is skipped, and the
session outcome is the single error. -/
theorem save_recording_first_failure_witness :
    save_recording (Except.ok ()) (Except.ok ()) (Except.error "disk full") (Except.ok ()) =
      (([Except.ok (), Except.ok ()] : List (Except String Unit)).map
          (fun _ => WriteStatus.completed) ++
        WriteStatus.failed ::
          ([Except.ok ()] : List (Except String Unit)).map (fun _ => WriteStatus.skipped),
       Except.error "disk full") :=
  save_recording_first_failure (Except.ok ()) (Except.ok ())
    (Except.error "disk full") (Except.ok ())
    [Except.ok (), Except.ok ()] [Except.ok ()] "disk full" rfl (by simp)

lemma extractT_round (lead t trail : List Char) :
    extractT lead trail (lead ++ (t ++ trail)) = t := by
  rw [extractT, List.drop_left]
  have hlen : (lead ++ (t ++ trail)).length - lead.length - trail.length = t.length := by
    simp only [List.length_append]
    omega
  rw [hlen, List.take_left]

/-- C8: all four output paths of a session embed one and the same timestamp
token `t` — recovering the token from each of the four paths gives back
exactly `t` — and each path lies under its configured directory, following
the layout `raw_<T>.wav`, `clean_<T>.wav`, `spectrogram_raw_<T>.png`,
`spectrogram_clean_<T>.png`. -/
theorem save_recording_shared_timestamp (t : List Char) :
    extractT (RAW_DIR ++ "/raw_".toList) ".wav".toList (raw_path t) = t ∧
    extractT (CLEAN_DIR ++ "/clean_".toList) ".wav".toList (clean_path t) = t ∧
    extractT (SPEC_DIR ++ "/spectrogram_raw_".toList) ".png".toList (spec_raw_path t) = t ∧
    extractT (SPEC_DIR ++ "/spectrogram_clean_".toList) ".png".toList (spec_clean_path t) = t ∧
    (raw_path t).take RAW_DIR.length = RAW_DIR ∧
    (clean_path t).take CLEAN_DIR.length = CLEAN_DIR ∧
    (spec_raw_path t).take SPEC_DIR.length = SPEC_DIR ∧
    (spec_clean_path t).take SPEC_DIR.length = SPEC_DIR := by
  refine ⟨?_, ?_, ?_, ?_, ?_, ?_, ?_, ?_⟩
  · rw [show raw_path t =
          (RAW_DIR ++ "/raw_".toList) ++ (t ++ ".wav".toList) by
        simp [raw_path]]
    exact extractT_round _ t _
  · rw [show clean_path t =
          (CLEAN_DIR ++ "/clean_".toList) ++ (t ++ ".wav".toList) by
        simp [clean_path]]
    exact extractT_round _ t _
  · rw [show spec_raw_path t =
          (SPEC_DIR ++ "/spectrogram_raw_".toList) ++ (t ++ ".png".toList) by
        simp [spec_raw_path]]
    exact extractT_round _ t _
  · rw [show spec_clean_path t =
          (SPEC_DIR ++ "/spectrogram_clean_".toList) ++ (t ++ ".png".toList) by
        simp [spec_clean_path]]
    exact extractT_round _ t _
  · rw [raw_path, List.append_assoc, List.append_assoc]
    exact List.take_left _ _
  · rw [clean_path, List.append_assoc, List.append_assoc]
    exact List.take_left _ _
  · rw [spec_raw_path, List.append_assoc, List.append_assoc]
    exact List.take_left _ _
  · rw [spec_clean_path, List.append_assoc, List.append_assoc]
    exact List.take_left _ _

/-- C9: a requested duration below the 60-second minimum is clamped up to
exactly 60 seconds, and the duration the recording proceeds with is always at
least 60 — a short request is never rejected. -/
theorem mainDuration_clamp (minutes : ℤ) :
    (minutes * 60 < 60 → mainDuration minutes = 60) ∧
    60 ≤ mainDuration minutes ∧
    (60 ≤ minutes * 60 → mainDuration minutes = minutes * 60) := by
  rw [mainDuration]
  refine ⟨fun h => ?_, ?_, fun h => ?_⟩
  · simp [h]
  · split <;> omega
  · split <;> omega

/-- C9 witness: requesting 0 minutes (0 seconds) proceeds with exactly 60
seconds. -/
theorem mainDuration_clamp_witness :
    mainDuration 0 = 60 ∧ 60 ≤ mainDuration 0 :=
  ⟨(mainDuration_clamp 0).1 (by norm_num), (mainDuration_clamp 0).2.1⟩

end SleepRec
